import Mathlib

/-!
Verification of the inbound webhook request verifier and dispatcher
(`createHTTPHandler`) of the slackhq/node-slack-client repository.

The repository snapshot under study ships the component's test suite
(`http-handler` tests) and type declarations, but not the handler body
itself; following the development's convention, the handler and its
collaborators are modelled from the specification (spec.md) and checked
against the behaviours the test suite pins down.
-/

namespace SlackHandler

/-! ## JSON values

Modelled from the spec: the dispatched event payload is "URL-decoded JSON"
and a structured dispatch `content` is "JSON-serialized".  We embed the
JSON data model used by the handler: null, booleans, integral numbers,
strings, arrays and objects. -/

inductive Json where
  | null : Json
  | bool : Bool → Json
  | num : Int → Json
  | str : String → Json
  | arr : List Json → Json
  | obj : List (String × Json) → Json

/-- Left-brace character, written via its code point. -/
def lbrace : Char := Char.ofNat 123

/-- Right-brace character, written via its code point. -/
def rbrace : Char := Char.ofNat 125

/-- Decimal digit character for a digit value below ten. -/
def digitChar (d : Nat) : Char := Char.ofNat (48 + d)

/-- Fuel-indexed big-endian decimal digits of a natural number. -/
def natCharsAux : Nat → Nat → List Char
  | 0, _ => []
  | fuel + 1, n =>
      if n < 10 then [digitChar n]
      else natCharsAux fuel (n / 10) ++ [digitChar (n % 10)]

/-- Big-endian decimal digits of a natural number. -/
def natChars (n : Nat) : List Char := natCharsAux (n + 1) n

/-- Decimal rendering of an integer, sign included. -/
def intChars (n : Int) : List Char :=
  if n < 0 then '-' :: natChars n.natAbs else natChars n.natAbs

/-- JSON string escaping: quote and backslash are escaped with a
backslash; all other characters are emitted verbatim. -/
def escape : List Char → List Char
  | [] => []
  | c :: cs => (if c = '"' ∨ c = '\\' then ['\\', c] else [c]) ++ escape cs

/-- Character list of a string, used for the keyword literals. -/
def litChars (s : String) : List Char := s.data

mutual

/-- JSON serialization (the model of `JSON.stringify`), producing the
compact form with no inserted whitespace. -/
def serJson : Json → List Char
  | .null => litChars "null"
  | .bool true => litChars "true"
  | .bool false => litChars "false"
  | .num n => intChars n
  | .str s => '"' :: escape s.data ++ ['"']
  | .arr xs => '[' :: serElems xs ++ [']']
  | .obj ms => lbrace :: serMembers ms ++ [rbrace]

/-- Comma-separated serialization of array elements. -/
def serElems : List Json → List Char
  | [] => []
  | [x] => serJson x
  | x :: y :: xs => serJson x ++ ',' :: serElems (y :: xs)

/-- Comma-separated serialization of object members. -/
def serMembers : List (String × Json) → List Char
  | [] => []
  | [(k, v)] => '"' :: escape k.data ++ '"' :: ':' :: serJson v
  | (k, v) :: m :: ms =>
      '"' :: escape k.data ++ '"' :: ':' :: serJson v ++ ',' :: serMembers (m :: ms)

end

/-- Serialization of a JSON value as a string. -/
def serialize (v : Json) : String := String.mk (serJson v)

/-! ## JSON parsing

Model of `JSON.parse` restricted to the compact form the handler meets
(no inserted whitespace, which is what `JSON.stringify` and the wire
payloads use). -/

/-- Decimal digit test on characters. -/
def isDigitC (c : Char) : Bool := 48 ≤ c.toNat && c.toNat ≤ 57

/-- Numeric value of a decimal digit character. -/
def digitVal (c : Char) : Nat := c.toNat - 48

/-- Consume a maximal run of decimal digits, accumulating their value. -/
def takeDigits : List Char → Nat → Nat × List Char
  | [], acc => (acc, [])
  | c :: cs, acc =>
      if isDigitC c then takeDigits cs (acc * 10 + digitVal c) else (acc, c :: cs)

/-- Parse a natural number: at least one leading digit is required. -/
def parseNatC (cs : List Char) : Option (Nat × List Char) :=
  match cs with
  | c :: _ => if isDigitC c then some (takeDigits cs 0) else none
  | [] => none

/-- Parse the body of a JSON string, after the opening quote, up to and
including the closing quote.  A backslash escapes the following
character, which stands for itself. -/
def parseStrBody : List Char → Option (List Char × List Char)
  | [] => none
  | c :: rest =>
      if c = '\\' then
        match rest with
        | [] => none
        | c2 :: rest2 => (parseStrBody rest2).map (fun p => (c2 :: p.1, p.2))
      else if c = '"' then some ([], rest)
      else (parseStrBody rest).map (fun p => (c :: p.1, p.2))

mutual

/-- Fuel-indexed parser for a single JSON value, returning the value and
the unconsumed suffix. -/
def parseVal : Nat → List Char → Option (Json × List Char)
  | 0, _ => none
  | _ + 1, 'n' :: 'u' :: 'l' :: 'l' :: rest => some (.null, rest)
  | _ + 1, 't' :: 'r' :: 'u' :: 'e' :: rest => some (.bool true, rest)
  | _ + 1, 'f' :: 'a' :: 'l' :: 's' :: 'e' :: rest => some (.bool false, rest)
  | _ + 1, '"' :: rest =>
      (parseStrBody rest).map (fun p => (.str (String.mk p.1), p.2))
  | _ + 1, '-' :: rest =>
      (parseNatC rest).map (fun p => (.num (-(p.1 : Int)), p.2))
  | fuel + 1, '[' :: rest =>
      match rest with
      | [] => none
      | c :: r =>
          if c = ']' then some (.arr [], r)
          else (parseElems fuel (c :: r)).map (fun p => (.arr p.1, p.2))
  | fuel + 1, c :: rest =>
      if c = lbrace then
        match rest with
        | c' :: r =>
            if c' = rbrace then some (.obj [], r)
            else (parseMembers fuel (c' :: r)).map (fun p => (.obj p.1, p.2))
        | [] => none
      else if isDigitC c then
        (parseNatC (c :: rest)).map (fun p => (.num (p.1 : Int), p.2))
      else none
  | _ + 1, [] => none

/-- Parse one or more comma-separated array elements followed by the
closing bracket. -/
def parseElems : Nat → List Char → Option (List Json × List Char)
  | 0, _ => none
  | fuel + 1, cs =>
      match parseVal fuel cs with
      | none => none
      | some (v, r) =>
          match r with
          | [] => none
          | c :: r2 =>
              if c = ',' then (parseElems fuel r2).map (fun p => (v :: p.1, p.2))
              else if c = ']' then some ([v], r2)
              else none

/-- Parse one or more comma-separated object members followed by the
closing brace. -/
def parseMembers : Nat → List Char → Option (List (String × Json) × List Char)
  | 0, _ => none
  | fuel + 1, cs =>
      match cs with
      | '"' :: rest =>
          match parseStrBody rest with
          | none => none
          | some (k, r) =>
              match r with
              | [] => none
              | c1 :: r2 =>
                  if c1 = ':' then
                    match parseVal fuel r2 with
                    | none => none
                    | some (v, r3) =>
                        match r3 with
                        | [] => none
                        | c :: r4 =>
                            if c = ',' then
                              (parseMembers fuel r4).map
                                (fun p => ((String.mk k, v) :: p.1, p.2))
                            else if c = rbrace then some ([(String.mk k, v)], r4)
                            else none
                  else none
      | _ => none

end

/-- Parse a complete JSON document: the whole input must be consumed. -/
def parseJson (s : String) : Option Json :=
  match parseVal (s.data.length + 1) s.data with
  | some (v, []) => some v
  | _ => none

/-! ## URL decoding and body parsing

Modelled from the spec: the verified raw body is "form-encoded with a
single field whose value is itself URL-decoded JSON" (field name
`payload`, per the external-interface section). -/

/-- Numeric value of a hexadecimal digit character. -/
def hexVal (c : Char) : Option Nat :=
  if 48 ≤ c.toNat ∧ c.toNat ≤ 57 then some (c.toNat - 48)
  else if 65 ≤ c.toNat ∧ c.toNat ≤ 70 then some (c.toNat - 55)
  else if 97 ≤ c.toNat ∧ c.toNat ≤ 102 then some (c.toNat - 87)
  else none

/-- Percent-decoding of a URL-encoded component; `+` decodes to a
space, `%XX` to the character with code `XX`. -/
def urlDecode : List Char → List Char
  | [] => []
  | '%' :: h1 :: h2 :: rest =>
      match hexVal h1, hexVal h2 with
      | some a, some b => Char.ofNat (16 * a + b) :: urlDecode rest
      | _, _ => '%' :: urlDecode (h1 :: h2 :: rest)
  | '+' :: rest => ' ' :: urlDecode rest
  | c :: rest => c :: urlDecode rest

/-- Modelled from the spec: decode the raw request body, a form-encoded
single `payload` field holding URL-encoded JSON, into the structured
event payload. -/
def parseSlackBody (raw : String) : Option Json :=
  match raw.data with
  | 'p' :: 'a' :: 'y' :: 'l' :: 'o' :: 'a' :: 'd' :: '=' :: rest =>
      parseJson (String.mk (urlDecode rest))
  | _ => none

/-- Modelled from the spec: a decoded payload is recognized as a
liveness probe when it carries the `ssl_check` marker field. -/
def isSslCheck : Json → Bool
  | .obj ms => ms.any (fun p => p.1 = "ssl_check")
  | _ => false

/-! ## Signature computation

Modelled from the spec: the canonical signing base string is
`"v0:<timestamp>:<raw_body>"`; a keyed hash (HMAC over a cryptographic
digest, an external collaborator) is computed over it with the signing
secret as key and rendered in hexadecimal prefixed with the version.
The digest itself is a collaborator outside this core; `hmacModel` is a
deterministic executable stand-in for it. -/

/-- Fuel-indexed big-endian hexadecimal digits of a natural number. -/
def hexCharsAux : Nat → Nat → List Char
  | 0, _ => []
  | fuel + 1, n =>
      if n < 16 then [Nat.digitChar n]
      else hexCharsAux fuel (n / 16) ++ [Nat.digitChar (n % 16)]

/-- Big-endian hexadecimal digits of a natural number (lower case). -/
def hexChars (n : Nat) : List Char := hexCharsAux (n + 1) n

/-- Modelled from the spec: deterministic keyed-hash stand-in for the
HMAC-SHA256 collaborator, folding key and message into a 64-bit word. -/
def hmacModel (key msg : String) : Nat :=
  (key.data ++ '|' :: msg.data).foldl
    (fun h c => (h * 131 + c.toNat) % (2 ^ 64)) 5381

/-- Modelled from the spec: the request signature, version-prefixed hex
rendering of the keyed hash of `"v0:<timestamp>:<raw_body>"`. -/
def computeSignature (secret : String) (ts : Int) (rawBody : String) : String :=
  "v0=" ++ String.mk (hexChars
    (hmacModel secret ("v0:" ++ String.mk (intChars ts) ++ ":" ++ rawBody)))

/-- Modelled from the spec: the constant-time equality routine used for
signature comparison.  Functionally it decides string equality; its
timing behaviour is outside this model. -/
def constantTimeEq (a b : String) : Bool := a == b

/-! ## The request verifier and dispatcher -/

/-- Result content produced by the dispatch callback: either a literal
string or a structured value to be JSON-serialized. -/
inductive Content where
  | str : String → Content
  | json : Json → Content

/-- Result of a successful dispatch: a status code and optional
content. -/
structure DispatchResult where
  status : Nat
  content : Option Content

/-- Modelled from the spec: the tri-state outcome of invoking the
dispatch callback — a result, a thrown error (with its message), or an
unusable result (`undefined` instead of an object). -/
inductive DispatchOutcome where
  | ok : DispatchResult → DispatchOutcome
  | err : String → DispatchOutcome
  | empty : DispatchOutcome

/-- Immutable verifier configuration: the shared signing secret and the
dispatch callback. -/
structure HandlerConfig where
  signingSecret : String
  dispatch : Json → DispatchOutcome

/-- The transport-level request as the verifier sees it: the timestamp
and signature headers, an optional pre-buffered raw body, and whether an
upstream middleware already parsed (and so consumed) the body. -/
structure SlackRequest where
  timestamp : Int
  signature : String
  rawBody : Option String
  hasParsedBody : Bool

/-- Per-request environment: the current time in seconds, the
development-mode flag from the process environment, and the outcome the
external raw-body reader would produce for this request's stream. -/
structure HandleEnv where
  now : Int
  development : Bool
  readBody : Except String String

/-- The response the handler writes: status code, headers, and an
optional body (`none` models ending the response with no body). -/
structure HttpResponse where
  status : Nat
  headers : List (String × String)
  body : Option String

/-- Static identification header value. -/
def poweredBy : String := "slack-node-sdk"

/-- Response with a status code, the identification header, and no
body. -/
def respondEmpty (status : Nat) : HttpResponse :=
  { status := status, headers := [("X-Slack-Powered-By", poweredBy)], body := none }

/-- Processing-failure response: status 500 and an empty body, except
that in development mode the error's message text is exposed. -/
def respondError (dev : Bool) (msg : String) : HttpResponse :=
  { status := 500
    headers := [("X-Slack-Powered-By", poweredBy)]
    body := if dev then some msg else none }

/-- Response built from a successful dispatch result: status from the
result; absent content gives no body, string content is used verbatim,
structured content is JSON-serialized under `Content-Type:
application/json`. -/
def renderResult (r : DispatchResult) : HttpResponse :=
  { status := r.status
    headers :=
      match r.content with
      | some (.json _) =>
          [("X-Slack-Powered-By", poweredBy), ("Content-Type", "application/json")]
      | _ => [("X-Slack-Powered-By", poweredBy)]
    body :=
      match r.content with
      | none => none
      | some (.str s) => some s
      | some (.json j) => some (serialize j) }

/-- Modelled from the spec: body acquisition.  A pre-buffered raw body
is used directly; otherwise, if an upstream middleware already parsed
the body (so the stream was consumed — the body is read at most once),
acquisition fails; otherwise the external raw-body reader is consulted. -/
def acquireBody (req : SlackRequest) (env : HandleEnv) : Except String String :=
  match req.rawBody with
  | some raw => .ok raw
  | none =>
      if req.hasParsedBody then
        .error "Parsing request body prohibits request signature verification"
      else env.readBody

/-- Modelled from the spec: the missing `createHTTPHandler` request
handler.  Returns the single response written and the list of payloads
the dispatch callback was invoked with.  Pipeline: body acquisition
(read failure gives status 500, message exposed only in development
mode); freshness check against a 300-second window, then constant-time
signature comparison, each rejecting with status 404 and no dispatch;
payload decoding (failure is a processing error, status 500); the
ssl-check liveness probe short-circuits to status 200 without dispatch;
otherwise the callback is invoked once — a result is rendered as the
response, a thrown error gives status 500 with the development-mode
message rule (spec scenario D), an unusable (undefined) result gives
status 404 with no body. -/
def handle (cfg : HandlerConfig) (env : HandleEnv) (req : SlackRequest) :
    HttpResponse × List Json :=
  match acquireBody req env with
  | .error msg => (respondError env.development msg, [])
  | .ok raw =>
      if 300 < (env.now - req.timestamp).natAbs then
        (respondEmpty 404, [])
      else if constantTimeEq
          (computeSignature cfg.signingSecret req.timestamp raw) req.signature
          = false then
        (respondEmpty 404, [])
      else
        match parseSlackBody raw with
        | none => (respondError env.development "Malformed request body", [])
        | some payload =>
            if isSslCheck payload then (respondEmpty 200, [])
            else
              match cfg.dispatch payload with
              | .ok r => (renderResult r, [payload])
              | .err msg => (respondError env.development msg, [payload])
              | .empty => (respondEmpty 404, [payload])

/-! ## Round-trip infrastructure: decimal digits -/

/-- A list of characters that does not start with a decimal digit, so a
maximal digit run ends right before it. -/
def noLeadDigit : List Char → Prop
  | [] => True
  | c :: _ => isDigitC c = false

/-! ## Concrete fixtures

The request bodies, signing secrets and stub dispatch callbacks used by
the repository's test suite. -/

/-- Raw body of an interactive-message event, as in the tests. -/
def okBody : String := "payload=%7B%22type%22%3A%22interactive_message%22%7D"

/-- Raw body of an ssl-check liveness probe, as in the tests. -/
def sslBody : String := "payload=%7B%22ssl_check%22%3A%221%22%7D"

/-- A fixed current time, in seconds. -/
def tNow : Int := 1700000000

/-- Request correctly carrying a body and the signature computed over it
with the given secret and timestamp. -/
def mkReq (secret : String) (ts : Int) (body : String) : SlackRequest :=
  { timestamp := ts
    signature := computeSignature secret ts body
    rawBody := some body
    hasParsedBody := false }

/-- Configuration whose dispatch stub resolves with status 200. -/
def baseCfg : HandlerConfig :=
  { signingSecret := "SIGNING_SECRET", dispatch := fun _ => .ok ⟨200, none⟩ }

/-- Environment at the fixed current time, production mode, with a
raw-body reader that is not consulted for pre-buffered requests. -/
def baseEnv : HandleEnv :=
  { now := tNow, development := false, readBody := .error "unused" }

/-- Structured content used by the JSON-serialization test. -/
def testContent : Json :=
  .obj [("abc", .str "def"), ("ghi", .bool true),
        ("jkl", .arr [.str "m", .str "n", .str "o"]), ("p", .num 5)]

/-- The decoded interactive-message payload. -/
def okPayload : Json := .obj [("type", .str "interactive_message")]

/-- The decoded ssl-check payload. -/
def sslPayload : Json := .obj [("ssl_check", .str "1")]

/-- Configuration whose dispatch stub throws. -/
def errCfg : HandlerConfig :=
  { signingSecret := "SIGNING_SECRET", dispatch := fun _ => .err "test error" }

/-- Configuration whose dispatch stub returns undefined. -/
def emptyCfg : HandlerConfig :=
  { signingSecret := "SIGNING_SECRET", dispatch := fun _ => .empty }

/-- Configuration whose dispatch stub resolves with structured content. -/
def jsonCfg : HandlerConfig :=
  { signingSecret := "SIGNING_SECRET"
    dispatch := fun _ => .ok ⟨200, some (.json testContent)⟩ }

/-- Configuration whose dispatch stub resolves with string content. -/
def strCfg : HandlerConfig :=
  { signingSecret := "SIGNING_SECRET"
    dispatch := fun _ => .ok ⟨200, some (.str "hello, world")⟩ }

/-- Configuration whose dispatch stub resolves with status 500 and no
content. -/
def noneCfg : HandlerConfig :=
  { signingSecret := "SIGNING_SECRET", dispatch := fun _ => .ok ⟨500, none⟩ }

/-- Development-mode environment. -/
def devEnv : HandleEnv :=
  { now := tNow, development := true, readBody := .error "unused" }

/-- Request with an unconsumed stream (no pre-buffered raw body, no
parsed body); the reader fails. -/
def streamErrReq : SlackRequest :=
  { timestamp := tNow
    signature := computeSignature "SIGNING_SECRET" tNow okBody
    rawBody := none
    hasParsedBody := false }

/-- Environment whose raw-body reader fails. -/
def readErrEnv (dev : Bool) : HandleEnv :=
  { now := tNow, development := dev, readBody := .error "test error" }

/-- Request whose body was parsed by middleware and whose raw body was
not retained. -/
def parsedOnlyReq : SlackRequest :=
  { timestamp := tNow
    signature := computeSignature "SIGNING_SECRET" tNow okBody
    rawBody := none
    hasParsedBody := true }

/-- Environment whose raw-body reader would return exactly the signed
bytes. -/
def readOkEnv : HandleEnv :=
  { now := tNow, development := false, readBody := .ok okBody }

/-! ## Round-trip infrastructure: digit lemmas -/

mutual

/-- Fuel bound sufficient for `parseVal` on a serialized value. -/
def sizeJ : Json → Nat
  | .null => 1
  | .bool _ => 1
  | .num _ => 1
  | .str _ => 1
  | .arr xs => 1 + sizeL xs
  | .obj ms => 1 + sizeM ms

/-- Fuel bound sufficient for `parseElems` on serialized elements. -/
def sizeL : List Json → Nat
  | [] => 0
  | x :: xs => 1 + sizeJ x + sizeL xs

/-- Fuel bound sufficient for `parseMembers` on serialized members. -/
def sizeM : List (String × Json) → Nat
  | [] => 0
  | (_, v) :: ms => 1 + sizeJ v + sizeM ms

end

theorem digitChar_toNat {d : Nat} (h : d < 10) : (digitChar d).toNat = 48 + d := by
  interval_cases d <;> rfl

theorem isDigitC_digitChar {d : Nat} (h : d < 10) : isDigitC (digitChar d) = true := by
  simp [isDigitC, digitChar_toNat h]
  omega

theorem digitVal_digitChar {d : Nat} (h : d < 10) : digitVal (digitChar d) = d := by
  simp [digitVal, digitChar_toNat h]

theorem natCharsAux_congr (n : Nat) : ∀ f1 f2, n < f1 → n < f2 →
    natCharsAux f1 n = natCharsAux f2 n := by
  induction n using Nat.strong_induction_on with
  | _ n ih =>
    intro f1 f2 h1 h2
    match f1, f2 with
    | g1 + 1, g2 + 1 =>
      simp only [natCharsAux]
      by_cases hn : n < 10
      · simp [hn]
      · have hd : n / 10 < n := Nat.div_lt_self (by omega) (by omega)
        simp only [if_neg hn]
        rw [ih (n / 10) hd g1 g2 (by omega) (by omega)]

theorem natChars_eq (n : Nat) : natChars n =
    if n < 10 then [digitChar n] else natChars (n / 10) ++ [digitChar (n % 10)] := by
  show natCharsAux (n + 1) n = _
  by_cases hn : n < 10
  · simp [natCharsAux, hn]
  · have hd : n / 10 < n := Nat.div_lt_self (by omega) (by omega)
    simp only [natCharsAux, if_neg hn]
    rw [natCharsAux_congr (n / 10) n (n / 10 + 1) (by omega) (by omega)]
    rfl

theorem natChars_cons (n : Nat) : ∃ d t, d < 10 ∧ natChars n = digitChar d :: t := by
  induction n using Nat.strong_induction_on with
  | _ n ih =>
    rw [natChars_eq]
    by_cases hn : n < 10
    · exact ⟨n, [], hn, by simp [hn]⟩
    · obtain ⟨d, t, hd, ht⟩ := ih (n / 10) (Nat.div_lt_self (by omega) (by omega))
      exact ⟨d, t ++ [digitChar (n % 10)], hd, by simp [hn, ht]⟩

theorem takeDigits_noLead (l : List Char) (acc : Nat) (h : noLeadDigit l) :
    takeDigits l acc = (acc, l) := by
  match l with
  | [] => rfl
  | c :: cs =>
    have hc : isDigitC c = false := h
    simp [takeDigits, hc]

theorem takeDigits_run (n : Nat) : ∀ acc rest,
    takeDigits (natChars n ++ rest) acc =
      takeDigits rest (acc * 10 ^ (natChars n).length + n) := by
  induction n using Nat.strong_induction_on with
  | _ n ih =>
    intro acc rest
    by_cases hn : n < 10
    · rw [natChars_eq, if_pos hn]
      simp [takeDigits, isDigitC_digitChar hn, digitVal_digitChar hn]
    · have hd : n / 10 < n := Nat.div_lt_self (by omega) (by omega)
      rw [natChars_eq, if_neg hn, List.append_assoc, ih (n / 10) hd acc _]
      have h10 : n % 10 < 10 := Nat.mod_lt _ (by omega)
      simp only [List.cons_append, List.nil_append, takeDigits,
        isDigitC_digitChar h10, if_pos, digitVal_digitChar h10,
        List.length_append, List.length_cons, List.length_nil]
      congr 1
      have h1 : (acc * 10 ^ (natChars (n / 10)).length + n / 10) * 10 + n % 10 =
          acc * (10 ^ (natChars (n / 10)).length * 10) + (n / 10 * 10 + n % 10) := by
        ring
      have h2 : n / 10 * 10 + n % 10 = n := by omega
      rw [h1, h2]
      have h3 : (natChars (n / 10)).length + (0 + 1) = (natChars (n / 10)).length + 1 := by
        omega
      rw [h3, pow_succ]

theorem parseNatC_ser (n : Nat) (rest : List Char) (h : noLeadDigit rest) :
    parseNatC (natChars n ++ rest) = some (n, rest) := by
  obtain ⟨d, t, hd, ht⟩ := natChars_cons n
  rw [ht]
  show parseNatC (digitChar d :: (t ++ rest)) = _
  rw [parseNatC, if_pos (isDigitC_digitChar hd)]
  have := takeDigits_run n 0 rest
  rw [ht] at this
  simp only [List.cons_append] at this ⊢
  rw [this, takeDigits_noLead rest _ h, Nat.zero_mul, Nat.zero_add]

theorem parseStrBody_cons (c : Char) (rest : List Char) :
    parseStrBody (c :: rest) =
      if c = '\\' then
        match rest with
        | [] => none
        | c2 :: rest2 => (parseStrBody rest2).map (fun p => (c2 :: p.1, p.2))
      else if c = '"' then some ([], rest)
      else (parseStrBody rest).map (fun p => (c :: p.1, p.2)) := by
  rw [parseStrBody.eq_def]

theorem parseStrBody_ser (s : List Char) : ∀ rest,
    parseStrBody (escape s ++ '"' :: rest) = some (s, rest) := by
  induction s with
  | nil =>
    intro rest
    show parseStrBody ('"' :: rest) = _
    rw [parseStrBody_cons, if_neg (by decide), if_pos rfl]
  | cons c cs ih =>
    intro rest
    by_cases hc : c = '"' ∨ c = '\\'
    · simp only [escape, if_pos hc, List.cons_append, List.append_assoc,
        List.nil_append]
      show parseStrBody ('\\' :: c :: (escape cs ++ '"' :: rest)) = _
      rw [parseStrBody_cons, if_pos rfl]
      simp [ih rest]
    · push_neg at hc
      simp only [escape, if_neg (by tauto : ¬(c = '"' ∨ c = '\\')), List.cons_append,
        List.nil_append]
      show parseStrBody (c :: (escape cs ++ '"' :: rest)) = _
      rw [parseStrBody_cons, if_neg hc.2, if_neg hc.1]
      simp [ih rest]

/-! ## Round-trip infrastructure: unfolding lemmas -/

theorem sizeJ_pos (v : Json) : 1 ≤ sizeJ v := by
  cases v <;> simp [sizeJ]

theorem pv_null (fuel : Nat) (rest : List Char) :
    parseVal (fuel + 1) (litChars "null" ++ rest) = some (.null, rest) := rfl

theorem pv_true (fuel : Nat) (rest : List Char) :
    parseVal (fuel + 1) (litChars "true" ++ rest) = some (.bool true, rest) := rfl

theorem pv_false (fuel : Nat) (rest : List Char) :
    parseVal (fuel + 1) (litChars "false" ++ rest) = some (.bool false, rest) := rfl

theorem pv_quote (fuel : Nat) (rest : List Char) :
    parseVal (fuel + 1) ('"' :: rest) =
      (parseStrBody rest).map (fun p => (.str (String.mk p.1), p.2)) := rfl

theorem pv_neg (fuel : Nat) (rest : List Char) :
    parseVal (fuel + 1) ('-' :: rest) =
      (parseNatC rest).map (fun p => (.num (-(p.1 : Int)), p.2)) := rfl

theorem pv_lbracket (fuel : Nat) (c : Char) (r : List Char) :
    parseVal (fuel + 1) ('[' :: c :: r) =
      (if c = ']' then some (.arr [], r)
       else (parseElems fuel (c :: r)).map (fun p => (.arr p.1, p.2))) := rfl

theorem pv_lbrace (fuel : Nat) (c : Char) (r : List Char) :
    parseVal (fuel + 1) (lbrace :: c :: r) =
      (if c = rbrace then some (.obj [], r)
       else (parseMembers fuel (c :: r)).map (fun p => (.obj p.1, p.2))) := rfl

theorem pv_digit (fuel : Nat) {d : Nat} (hd : d < 10) (rest : List Char) :
    parseVal (fuel + 1) (digitChar d :: rest) =
      (parseNatC (digitChar d :: rest)).map (fun p => (.num (p.1 : Int), p.2)) := by
  interval_cases d <;> rfl

theorem pe_unfold (fuel : Nat) (cs : List Char) :
    parseElems (fuel + 1) cs =
      (match parseVal fuel cs with
      | none => none
      | some (v, r) =>
          match r with
          | [] => none
          | c :: r2 =>
              if c = ',' then (parseElems fuel r2).map (fun p => (v :: p.1, p.2))
              else if c = ']' then some ([v], r2)
              else none) := rfl

theorem pm_unfold (fuel : Nat) (kcs : List Char) :
    parseMembers (fuel + 1) ('"' :: kcs) =
      (match parseStrBody kcs with
      | none => none
      | some (k, r) =>
          match r with
          | [] => none
          | c1 :: r2 =>
              if c1 = ':' then
                match parseVal fuel r2 with
                | none => none
                | some (v, r3) =>
                    match r3 with
                    | [] => none
                    | c :: r4 =>
                        if c = ',' then
                          (parseMembers fuel r4).map
                            (fun p => ((String.mk k, v) :: p.1, p.2))
                        else if c = rbrace then some ([(String.mk k, v)], r4)
                        else none
              else none) := rfl

theorem serJson_cons (v : Json) :
    ∃ c t, serJson v = c :: t ∧ c ≠ ']' ∧ c ≠ rbrace := by
  cases v with
  | null =>
    exact ⟨'n', ['u', 'l', 'l'], by simp only [serJson]; rfl, by decide, by decide⟩
  | bool b =>
    cases b with
    | false =>
      exact ⟨'f', ['a', 'l', 's', 'e'], by simp only [serJson]; rfl, by decide,
        by decide⟩
    | true =>
      exact ⟨'t', ['r', 'u', 'e'], by simp only [serJson]; rfl, by decide,
        by decide⟩
  | num n =>
    by_cases hn : n < 0
    · exact ⟨'-', natChars n.natAbs, by simp [serJson, intChars, hn], by decide,
        by decide⟩
    · obtain ⟨d, t, hd, ht⟩ := natChars_cons n.natAbs
      refine ⟨digitChar d, t, by simp [serJson, intChars, hn, ht], ?_, ?_⟩
      · intro hcontra
        have h2 := congrArg Char.toNat hcontra
        rw [digitChar_toNat hd, show Char.toNat ']' = 93 from rfl] at h2
        omega
      · intro hcontra
        have h2 := congrArg Char.toNat hcontra
        rw [digitChar_toNat hd, show Char.toNat rbrace = 125 from rfl] at h2
        omega
  | str s =>
    exact ⟨'"', escape s.data ++ ['"'], by simp [serJson], by decide, by decide⟩
  | arr xs =>
    exact ⟨'[', serElems xs ++ [']'], by simp [serJson], by decide, by decide⟩
  | obj ms =>
    exact ⟨lbrace, serMembers ms ++ [rbrace], by simp [serJson], by decide,
      by decide⟩

theorem noLead_of {c : Char} (h : isDigitC c = false) (l : List Char) :
    noLeadDigit (c :: l) := h

theorem mk_data (s : String) : String.mk s.data = s := rfl

theorem serElems_cons (x : Json) (xs : List Json) :
    ∃ t, serElems (x :: xs) = serJson x ++ t := by
  cases xs with
  | nil => exact ⟨[], by simp [serElems]⟩
  | cons y ys => exact ⟨',' :: serElems (y :: ys), by simp [serElems]⟩

theorem parse_ser (fuel : Nat) :
    (∀ v rest, sizeJ v ≤ fuel → noLeadDigit rest →
        parseVal fuel (serJson v ++ rest) = some (v, rest)) ∧
    (∀ x xs rest, sizeL (x :: xs) ≤ fuel →
        parseElems fuel (serElems (x :: xs) ++ ']' :: rest) = some (x :: xs, rest)) ∧
    (∀ k v ms rest, sizeM ((k, v) :: ms) ≤ fuel →
        parseMembers fuel (serMembers ((k, v) :: ms) ++ rbrace :: rest) =
          some ((k, v) :: ms, rest)) := by
  induction fuel with
  | zero =>
    refine ⟨?_, ?_, ?_⟩
    · intro v rest hs _
      have := sizeJ_pos v
      omega
    · intro x xs rest hs
      simp [sizeL] at hs
    · intro k v ms rest hs
      simp [sizeM] at hs
  | succ fuel ih =>
    obtain ⟨ihP, ihQ, ihR⟩ := ih
    refine ⟨?_, ?_, ?_⟩
    · intro v rest hs hr
      cases v with
      | null =>
        simp only [serJson]
        exact pv_null fuel rest
      | bool b =>
        cases b with
        | true =>
          simp only [serJson]
          exact pv_true fuel rest
        | false =>
          simp only [serJson]
          exact pv_false fuel rest
      | num n =>
        by_cases hn : n < 0
        · simp only [serJson, intChars, if_pos hn, List.cons_append]
          rw [pv_neg, parseNatC_ser _ _ hr]
          have hcast : -((n.natAbs : Int)) = n := by omega
          show some (Json.num (-((n.natAbs : Int))), rest) = some (Json.num n, rest)
          rw [hcast]
        · simp only [serJson, intChars, if_neg hn]
          obtain ⟨d, t, hd, ht⟩ := natChars_cons n.natAbs
          rw [ht, List.cons_append, pv_digit fuel hd, ← List.cons_append, ← ht,
            parseNatC_ser _ _ hr]
          have hcast : ((n.natAbs : Int)) = n := by omega
          show some (Json.num ((n.natAbs : Int)), rest) = some (Json.num n, rest)
          rw [hcast]
      | str s =>
        simp only [serJson, List.cons_append, List.append_assoc,
          List.nil_append]
        rw [pv_quote, parseStrBody_ser]
        simp [mk_data]
      | arr xs =>
        cases xs with
        | nil =>
          simp only [serJson, serElems, List.nil_append, List.cons_append]
          rw [pv_lbracket, if_pos rfl]
        | cons x xs =>
          have hsl : sizeL (x :: xs) ≤ fuel := by
            simp only [sizeJ] at hs
            omega
          obtain ⟨t0, ht0⟩ := serElems_cons x xs
          obtain ⟨c, t, hct, hc1, _⟩ := serJson_cons x
          have hshape : serElems (x :: xs) ++ ']' :: rest =
              c :: (t ++ t0 ++ ']' :: rest) := by
            rw [ht0, hct]
            simp [List.append_assoc]
          simp only [serJson, List.cons_append, List.append_assoc,
            List.nil_append]
          rw [show serElems (x :: xs) ++ ']' :: rest =
              c :: (t ++ t0 ++ ']' :: rest) from hshape]
          rw [pv_lbracket, if_neg hc1, ← hshape, ihQ x xs rest hsl]
          rfl
      | obj ms =>
        cases ms with
        | nil =>
          simp only [serJson, serMembers, List.nil_append, List.cons_append]
          rw [pv_lbrace, if_pos rfl]
        | cons m ms =>
          obtain ⟨k, v⟩ := m
          have hsm : sizeM ((k, v) :: ms) ≤ fuel := by
            simp only [sizeJ] at hs
            omega
          have hshape : ∃ t, serMembers ((k, v) :: ms) = '"' :: t := by
            cases ms with
            | nil =>
              exact ⟨escape k.data ++ '"' :: ':' :: serJson v, by simp [serMembers]⟩
            | cons m2 ms2 =>
              exact ⟨escape k.data ++ '"' :: ':' :: serJson v ++
                ',' :: serMembers (m2 :: ms2), by simp [serMembers]⟩
          obtain ⟨t, ht⟩ := hshape
          simp only [serJson, List.cons_append, List.append_assoc,
            List.nil_append]
          rw [show serMembers ((k, v) :: ms) ++ rbrace :: rest =
              '"' :: (t ++ rbrace :: rest) from by rw [ht]; simp]
          rw [pv_lbrace, if_neg (by decide), ← List.cons_append, ← ht,
            ihR k v ms rest hsm]
          rfl
    · intro x xs rest hs
      have hsx : sizeJ x ≤ fuel := by
        simp only [sizeL] at hs
        omega
      rw [pe_unfold]
      cases xs with
      | nil =>
        simp only [serElems]
        rw [ihP x (']' :: rest) hsx (noLead_of (by decide) _)]
        dsimp only
        rw [if_neg (by decide), if_pos rfl]
      | cons y ys =>
        have hsl : sizeL (y :: ys) ≤ fuel := by
          simp only [sizeL] at hs ⊢
          omega
        simp only [serElems, List.append_assoc, List.cons_append]
        rw [ihP x (',' :: (serElems (y :: ys) ++ ']' :: rest)) hsx
          (noLead_of (by decide) _)]
        dsimp only
        rw [if_pos rfl, ihQ y ys rest hsl]
        rfl
    · intro k v ms rest hs
      have hsv : sizeJ v ≤ fuel := by
        simp only [sizeM] at hs
        omega
      cases ms with
      | nil =>
        simp only [serMembers, List.cons_append, List.append_assoc,
          List.nil_append]
        rw [pm_unfold, parseStrBody_ser]
        dsimp only
        rw [if_pos rfl, ihP v (rbrace :: rest) hsv (noLead_of (by decide) _)]
        dsimp only
        rw [if_neg (by decide), if_pos rfl, mk_data]
      | cons m ms =>
        have hsm : sizeM (m :: ms) ≤ fuel := by
          simp only [sizeM] at hs ⊢
          obtain ⟨k2, v2⟩ := m
          simp only [sizeM] at hs ⊢
          omega
        obtain ⟨k2, v2⟩ := m
        simp only [serMembers, List.cons_append, List.append_assoc,
          List.nil_append]
        rw [pm_unfold, parseStrBody_ser]
        dsimp only
        rw [if_pos rfl,
          ihP v (',' :: (serMembers ((k2, v2) :: ms) ++ rbrace :: rest)) hsv
            (noLead_of (by decide) _)]
        dsimp only
        rw [if_pos rfl, ihR k2 v2 ms rest hsm, mk_data]
        rfl

theorem intChars_cons (n : Int) : ∃ c t, intChars n = c :: t := by
  by_cases hn : n < 0
  · exact ⟨'-', natChars n.natAbs, by simp [intChars, hn]⟩
  · obtain ⟨d, t, hd, ht⟩ := natChars_cons n.natAbs
    exact ⟨digitChar d, t, by simp [intChars, hn, ht]⟩

theorem size_le_len (n : Nat) :
    (∀ v, sizeJ v ≤ n → sizeJ v ≤ (serJson v).length) ∧
    (∀ xs, sizeL xs ≤ n → sizeL xs ≤ (serElems xs).length + 1) ∧
    (∀ ms, sizeM ms ≤ n → sizeM ms ≤ (serMembers ms).length + 1) := by
  induction n with
  | zero =>
    refine ⟨?_, ?_, ?_⟩
    · intro v hv
      have := sizeJ_pos v
      omega
    · intro xs hxs
      cases xs with
      | nil => simp [sizeL]
      | cons x xs => simp [sizeL] at hxs
    · intro ms hms
      cases ms with
      | nil => simp [sizeM]
      | cons m ms =>
        obtain ⟨k, v⟩ := m
        simp [sizeM] at hms
  | succ n ih =>
    obtain ⟨ihA, ihB, ihC⟩ := ih
    refine ⟨?_, ?_, ?_⟩
    · intro v hv
      cases v with
      | null =>
        simp only [sizeJ, serJson]
        decide
      | bool b =>
        cases b <;> (simp only [sizeJ, serJson]; decide)
      | num m =>
        obtain ⟨c, t, hct⟩ := intChars_cons m
        simp [sizeJ, serJson, hct]
      | str s => simp [sizeJ, serJson]
      | arr xs =>
        have hxs : sizeL xs ≤ n := by
          simp only [sizeJ] at hv
          omega
        have := ihB xs hxs
        simp only [sizeJ, serJson, List.length_cons, List.length_append]
        simp only [List.length_cons, List.length_nil]
        omega
      | obj ms =>
        have hms : sizeM ms ≤ n := by
          simp only [sizeJ] at hv
          omega
        have := ihC ms hms
        simp only [sizeJ, serJson, List.length_cons, List.length_append]
        simp only [List.length_cons, List.length_nil]
        omega
    · intro xs hxs
      cases xs with
      | nil => simp [sizeL]
      | cons x xs =>
        have hx : sizeJ x ≤ n := by
          simp only [sizeL] at hxs
          omega
        have hA := ihA x hx
        cases xs with
        | nil =>
          simp only [sizeL, serElems, List.length_append] at *
          omega
        | cons y ys =>
          have hys : sizeL (y :: ys) ≤ n := by
            simp only [sizeL] at hxs ⊢
            omega
          have hB := ihB (y :: ys) hys
          simp only [sizeL, serElems, List.length_append, List.length_cons] at *
          omega
    · intro ms hms
      cases ms with
      | nil => simp [sizeM]
      | cons m ms =>
        obtain ⟨k, v⟩ := m
        have hv : sizeJ v ≤ n := by
          simp only [sizeM] at hms
          omega
        have hA := ihA v hv
        cases ms with
        | nil =>
          simp only [sizeM, serMembers, List.length_append, List.length_cons] at *
          omega
        | cons m2 ms2 =>
          have hms2 : sizeM (m2 :: ms2) ≤ n := by
            obtain ⟨k2, v2⟩ := m2
            simp only [sizeM] at hms ⊢
            omega
          have hC := ihC (m2 :: ms2) hms2
          simp only [sizeM, serMembers, List.length_append, List.length_cons] at *
          omega

theorem parseJson_serialize (v : Json) : parseJson (serialize v) = some v := by
  have hdata : (String.mk (serJson v)).data = serJson v := rfl
  have hfuel : sizeJ v ≤ (serJson v).length + 1 := by
    have := (size_le_len (sizeJ v)).1 v le_rfl
    omega
  have h := (parse_ser ((serJson v).length + 1)).1 v [] hfuel trivial
  rw [List.append_nil] at h
  show (match parseVal ((serialize v).data.length + 1) (serialize v).data with
    | some (w, []) => some w
    | _ => none) = some v
  show (match parseVal ((serJson v).length + 1) (serJson v) with
    | some (w, []) => some w
    | _ => none) = some v
  rw [h]


/-! ## Behaviour of the handler -/

theorem constantTimeEq_eq {a b : String} (h : a = b) : constantTimeEq a b = true := by
  unfold constantTimeEq
  exact beq_iff_eq.mpr h

theorem constantTimeEq_ne {a b : String} (h : a ≠ b) : constantTimeEq a b = false := by
  unfold constantTimeEq
  exact beq_eq_false_iff_ne.mpr h

theorem acquireBody_ok {req : SlackRequest} {env : HandleEnv} {raw : String}
    (h : req.rawBody = some raw) : acquireBody req env = .ok raw := by
  unfold acquireBody
  rw [h]

theorem handle_verified (cfg : HandlerConfig) (env : HandleEnv) (req : SlackRequest)
    (raw : String) (p : Json)
    (hacq : acquireBody req env = .ok raw)
    (hfresh : (env.now - req.timestamp).natAbs ≤ 300)
    (hsig : computeSignature cfg.signingSecret req.timestamp raw = req.signature)
    (hparse : parseSlackBody raw = some p) :
    handle cfg env req =
      (if isSslCheck p then (respondEmpty 200, [])
       else
         match cfg.dispatch p with
         | .ok r => (renderResult r, [p])
         | .err msg => (respondError env.development msg, [p])
         | .empty => (respondEmpty 404, [p])) := by
  unfold handle
  rw [hacq]
  dsimp only
  rw [if_neg (by omega), if_neg (by rw [constantTimeEq_eq hsig]; simp), hparse]


/-! ## Claims -/

set_option maxRecDepth 400000 in
/-- Claim C1, counterexample: a liveness-probe request whose signature
header matches the HMAC computed with the configured signing secret and
whose timestamp is within 300 seconds of the current time is answered
without ever invoking the dispatch callback, although the callback is
configured to return a status-200 result for every payload; so a
verified request does not always dispatch exactly once. -/
theorem ssl_probe_defeats_universal_dispatch :
    computeSignature baseCfg.signingSecret
        (mkReq "SIGNING_SECRET" tNow sslBody).timestamp sslBody =
      (mkReq "SIGNING_SECRET" tNow sslBody).signature ∧
    (baseEnv.now - (mkReq "SIGNING_SECRET" tNow sslBody).timestamp).natAbs ≤ 300 ∧
    (∀ q, baseCfg.dispatch q = .ok ⟨200, none⟩) ∧
    (handle baseCfg baseEnv (mkReq "SIGNING_SECRET" tNow sslBody)).2 = [] :=
  ⟨rfl, by decide, fun _ => rfl, rfl⟩

/-- Claim C1 (amended): for every request whose raw body is acquired,
whose signature header matches the HMAC computed with the configured
signing secret, whose timestamp is within 300 seconds of the current
time, whose payload decodes and is not an ssl-check probe, and for which
the dispatch callback returns a result, handle invokes the dispatch
callback exactly once with the decoded event payload, and the final
response status code equals the status field of the dispatch result. -/
theorem verified_request_dispatches_once (cfg : HandlerConfig) (env : HandleEnv)
    (req : SlackRequest) (raw : String) (p : Json) (r : DispatchResult)
    (hacq : acquireBody req env = .ok raw)
    (hfresh : (env.now - req.timestamp).natAbs ≤ 300)
    (hsig : computeSignature cfg.signingSecret req.timestamp raw = req.signature)
    (hparse : parseSlackBody raw = some p)
    (hssl : isSslCheck p = false)
    (hdisp : cfg.dispatch p = .ok r) :
    (handle cfg env req).2 = [p] ∧ (handle cfg env req).1.status = r.status := by
  rw [handle_verified cfg env req raw p hacq hfresh hsig hparse,
    if_neg (by simp [hssl]), hdisp]
  exact ⟨rfl, rfl⟩

set_option maxRecDepth 100000 in
/-- Claim C1, witness: the interactive-message request signed with the
correct secret at the current time is dispatched once and answered with
the stub's status 200. -/
theorem verified_request_dispatches_once_witness :
    (handle baseCfg baseEnv (mkReq "SIGNING_SECRET" tNow okBody)).2 = [okPayload] ∧
    (handle baseCfg baseEnv (mkReq "SIGNING_SECRET" tNow okBody)).1.status =
      (⟨200, none⟩ : DispatchResult).status :=
  verified_request_dispatches_once baseCfg baseEnv
    (mkReq "SIGNING_SECRET" tNow okBody) okBody okPayload ⟨200, none⟩
    rfl (by decide) rfl rfl rfl rfl

/-- Claim C2: for every request where the computed signature does not
equal the header-supplied signature, handle never invokes the dispatch
callback and responds with status 404 and an empty body, regardless of
how the dispatch callback is configured. -/
theorem sig_mismatch_rejected_404 (cfg : HandlerConfig) (env : HandleEnv)
    (req : SlackRequest) (raw : String)
    (hacq : acquireBody req env = .ok raw)
    (hsig : computeSignature cfg.signingSecret req.timestamp raw ≠ req.signature) :
    (handle cfg env req).1.status = 404 ∧ (handle cfg env req).1.body = none ∧
    (handle cfg env req).2 = [] := by
  unfold handle
  rw [hacq]
  dsimp only
  by_cases hf : 300 < (env.now - req.timestamp).natAbs
  · rw [if_pos hf]
    exact ⟨rfl, rfl, rfl⟩
  · rw [if_neg hf, if_pos (constantTimeEq_ne hsig)]
    exact ⟨rfl, rfl, rfl⟩

set_option maxRecDepth 100000 in
/-- Claim C2, witness: a request signed with an incorrect secret is
rejected with 404, empty body, and no dispatch. -/
theorem sig_mismatch_rejected_404_witness :
    (handle baseCfg baseEnv (mkReq "INVALID_SECRET" tNow okBody)).1.status = 404 ∧
    (handle baseCfg baseEnv (mkReq "INVALID_SECRET" tNow okBody)).1.body = none ∧
    (handle baseCfg baseEnv (mkReq "INVALID_SECRET" tNow okBody)).2 = [] :=
  sig_mismatch_rejected_404 baseCfg baseEnv
    (mkReq "INVALID_SECRET" tNow okBody) okBody rfl (by decide)

/-- Claim C3: for every request whose timestamp header differs from the
current time by more than 300 seconds, in either direction, handle
responds with status 404 and does not invoke the dispatch callback, even
if the signature header is a valid HMAC for that timestamp and body. -/
theorem stale_timestamp_rejected_404 (cfg : HandlerConfig) (env : HandleEnv)
    (req : SlackRequest) (raw : String)
    (hacq : acquireBody req env = .ok raw)
    (hstale : 300 < (env.now - req.timestamp).natAbs) :
    (handle cfg env req).1.status = 404 ∧ (handle cfg env req).1.body = none ∧
    (handle cfg env req).2 = [] := by
  unfold handle
  rw [hacq]
  dsimp only
  rw [if_pos hstale]
  exact ⟨rfl, rfl, rfl⟩

set_option maxRecDepth 100000 in
/-- Claim C3, witness: a request six minutes old, correctly signed for
its own timestamp, is rejected with 404 and no dispatch. -/
theorem stale_timestamp_rejected_404_witness :
    (handle baseCfg baseEnv (mkReq "SIGNING_SECRET" (tNow - 360) okBody)).1.status
        = 404 ∧
    (handle baseCfg baseEnv (mkReq "SIGNING_SECRET" (tNow - 360) okBody)).1.body
        = none ∧
    (handle baseCfg baseEnv (mkReq "SIGNING_SECRET" (tNow - 360) okBody)).2 = [] :=
  stale_timestamp_rejected_404 baseCfg baseEnv
    (mkReq "SIGNING_SECRET" (tNow - 360) okBody) okBody rfl (by decide)

/-- Claim C4: for every request that passes signature and freshness
verification and whose decoded payload carries the ssl_check marker
field, handle responds with status 200 and an empty body and does not
invoke the dispatch callback. -/
theorem ssl_check_short_circuit_200 (cfg : HandlerConfig) (env : HandleEnv)
    (req : SlackRequest) (raw : String) (p : Json)
    (hacq : acquireBody req env = .ok raw)
    (hfresh : (env.now - req.timestamp).natAbs ≤ 300)
    (hsig : computeSignature cfg.signingSecret req.timestamp raw = req.signature)
    (hparse : parseSlackBody raw = some p)
    (hssl : isSslCheck p = true) :
    (handle cfg env req).1.status = 200 ∧ (handle cfg env req).1.body = none ∧
    (handle cfg env req).2 = [] := by
  rw [handle_verified cfg env req raw p hacq hfresh hsig hparse, if_pos hssl]
  exact ⟨rfl, rfl, rfl⟩

set_option maxRecDepth 100000 in
/-- Claim C4, witness: the ssl-check probe with an otherwise-valid
signature gets status 200 and no dispatch. -/
theorem ssl_check_short_circuit_200_witness :
    (handle baseCfg baseEnv (mkReq "SIGNING_SECRET" tNow sslBody)).1.status = 200 ∧
    (handle baseCfg baseEnv (mkReq "SIGNING_SECRET" tNow sslBody)).1.body = none ∧
    (handle baseCfg baseEnv (mkReq "SIGNING_SECRET" tNow sslBody)).2 = [] :=
  ssl_check_short_circuit_200 baseCfg baseEnv
    (mkReq "SIGNING_SECRET" tNow sslBody) sslBody sslPayload
    rfl (by decide) rfl rfl rfl

/-- Claim C5: for every verified request where the dispatch callback
throws, handle responds with status 500; the response body is empty in
production mode and equals the thrown error's message text when the
development mode flag is set. -/
theorem dispatch_error_500_dev_message (cfg : HandlerConfig) (env : HandleEnv)
    (req : SlackRequest) (raw : String) (p : Json) (msg : String)
    (hacq : acquireBody req env = .ok raw)
    (hfresh : (env.now - req.timestamp).natAbs ≤ 300)
    (hsig : computeSignature cfg.signingSecret req.timestamp raw = req.signature)
    (hparse : parseSlackBody raw = some p)
    (hssl : isSslCheck p = false)
    (hdisp : cfg.dispatch p = .err msg) :
    (handle cfg env req).1.status = 500 ∧
    (handle cfg env req).1.body =
      (if env.development then some msg else none) := by
  rw [handle_verified cfg env req raw p hacq hfresh hsig hparse,
    if_neg (by simp [hssl]), hdisp]
  exact ⟨rfl, rfl⟩

set_option maxRecDepth 100000 in
/-- Claim C5, witness: in development mode a throwing dispatch stub
yields status 500 with the thrown message as body. -/
theorem dispatch_error_500_dev_message_witness :
    (handle errCfg devEnv (mkReq "SIGNING_SECRET" tNow okBody)).1.status = 500 ∧
    (handle errCfg devEnv (mkReq "SIGNING_SECRET" tNow okBody)).1.body =
      (if devEnv.development then some "test error" else none) :=
  dispatch_error_500_dev_message errCfg devEnv
    (mkReq "SIGNING_SECRET" tNow okBody) okBody okPayload "test error"
    rfl (by decide) rfl rfl rfl rfl

/-- Claim C6: for every request where acquiring the raw body fails,
handle responds with status 500 without invoking the dispatch callback;
the response body is empty unless the development mode flag is set, in
which case it equals the error's message text. -/
theorem read_failure_500_dev_message (cfg : HandlerConfig) (env : HandleEnv)
    (req : SlackRequest) (msg : String)
    (hraw : req.rawBody = none)
    (hpb : req.hasParsedBody = false)
    (hread : env.readBody = .error msg) :
    (handle cfg env req).1.status = 500 ∧
    (handle cfg env req).1.body = (if env.development then some msg else none) ∧
    (handle cfg env req).2 = [] := by
  have hacq : acquireBody req env = .error msg := by
    simp [acquireBody, hraw, hpb, hread]
  unfold handle
  rw [hacq]
  exact ⟨rfl, rfl, rfl⟩

set_option maxRecDepth 100000 in
/-- Claim C6, witness: a failing raw-body reader yields status 500 with
the error message as body in development mode and no dispatch. -/
theorem read_failure_500_dev_message_witness :
    (handle baseCfg (readErrEnv true) streamErrReq).1.status = 500 ∧
    (handle baseCfg (readErrEnv true) streamErrReq).1.body =
      (if (readErrEnv true).development then some "test error" else none) ∧
    (handle baseCfg (readErrEnv true) streamErrReq).2 = [] :=
  read_failure_500_dev_message baseCfg (readErrEnv true) streamErrReq "test error"
    rfl rfl rfl

/-- Claim C7: for every verified request where the dispatch callback
returns an unusable result (undefined instead of an object), handle
responds with status 404 and no body. -/
theorem dispatch_undefined_404 (cfg : HandlerConfig) (env : HandleEnv)
    (req : SlackRequest) (raw : String) (p : Json)
    (hacq : acquireBody req env = .ok raw)
    (hfresh : (env.now - req.timestamp).natAbs ≤ 300)
    (hsig : computeSignature cfg.signingSecret req.timestamp raw = req.signature)
    (hparse : parseSlackBody raw = some p)
    (hssl : isSslCheck p = false)
    (hdisp : cfg.dispatch p = .empty) :
    (handle cfg env req).1.status = 404 ∧ (handle cfg env req).1.body = none := by
  rw [handle_verified cfg env req raw p hacq hfresh hsig hparse,
    if_neg (by simp [hssl]), hdisp]
  exact ⟨rfl, rfl⟩

set_option maxRecDepth 100000 in
/-- Claim C7, witness: a dispatch stub returning undefined yields status
404 and no body. -/
theorem dispatch_undefined_404_witness :
    (handle emptyCfg baseEnv (mkReq "SIGNING_SECRET" tNow okBody)).1.status = 404 ∧
    (handle emptyCfg baseEnv (mkReq "SIGNING_SECRET" tNow okBody)).1.body = none :=
  dispatch_undefined_404 emptyCfg baseEnv
    (mkReq "SIGNING_SECRET" tNow okBody) okBody okPayload
    rfl (by decide) rfl rfl rfl rfl

/-- Claim C8: for every verified request whose dispatch result carries
structured (non-string) content, the response carries the header
Content-Type: application/json and a body equal to the JSON
serialization of the content, and JSON-parsing that body yields the
original content back (round-trip). -/
theorem json_content_roundtrip (cfg : HandlerConfig) (env : HandleEnv)
    (req : SlackRequest) (raw : String) (p : Json) (r : DispatchResult) (j : Json)
    (hacq : acquireBody req env = .ok raw)
    (hfresh : (env.now - req.timestamp).natAbs ≤ 300)
    (hsig : computeSignature cfg.signingSecret req.timestamp raw = req.signature)
    (hparse : parseSlackBody raw = some p)
    (hssl : isSslCheck p = false)
    (hdisp : cfg.dispatch p = .ok r)
    (hcontent : r.content = some (.json j)) :
    ("Content-Type", "application/json") ∈ (handle cfg env req).1.headers ∧
    (handle cfg env req).1.body = some (serialize j) ∧
    parseJson (serialize j) = some j := by
  rw [handle_verified cfg env req raw p hacq hfresh hsig hparse,
    if_neg (by simp [hssl]), hdisp]
  refine ⟨?_, ?_, parseJson_serialize j⟩
  · show ("Content-Type", "application/json") ∈ (renderResult r).headers
    unfold renderResult
    rw [hcontent]
    exact List.mem_cons_of_mem _ (List.mem_cons_self _ _)
  · show (renderResult r).body = some (serialize j)
    unfold renderResult
    rw [hcontent]

set_option maxRecDepth 100000 in
/-- Claim C8, witness: the structured test content is serialized as the
response body under Content-Type application/json and parses back to
itself. -/
theorem json_content_roundtrip_witness :
    ("Content-Type", "application/json") ∈
      (handle jsonCfg baseEnv (mkReq "SIGNING_SECRET" tNow okBody)).1.headers ∧
    (handle jsonCfg baseEnv (mkReq "SIGNING_SECRET" tNow okBody)).1.body =
      some (serialize testContent) ∧
    parseJson (serialize testContent) = some testContent :=
  json_content_roundtrip jsonCfg baseEnv
    (mkReq "SIGNING_SECRET" tNow okBody) okBody okPayload
    ⟨200, some (.json testContent)⟩ testContent rfl (by decide) rfl rfl rfl rfl rfl

/-- Claim C9: for every verified request with a dispatch result, absent
content gives an empty body and string content is used verbatim as the
body with no Content-Type override; in both cases the response status
equals the dispatch result's status field. -/
theorem content_absent_or_string_body (cfg : HandlerConfig) (env : HandleEnv)
    (req : SlackRequest) (raw : String) (p : Json) (r : DispatchResult)
    (hacq : acquireBody req env = .ok raw)
    (hfresh : (env.now - req.timestamp).natAbs ≤ 300)
    (hsig : computeSignature cfg.signingSecret req.timestamp raw = req.signature)
    (hparse : parseSlackBody raw = some p)
    (hssl : isSslCheck p = false)
    (hdisp : cfg.dispatch p = .ok r) :
    (r.content = none →
      (handle cfg env req).1.body = none ∧
      (handle cfg env req).1.status = r.status ∧
      (handle cfg env req).1.headers = [("X-Slack-Powered-By", poweredBy)]) ∧
    (∀ s0, r.content = some (.str s0) →
      (handle cfg env req).1.body = some s0 ∧
      (handle cfg env req).1.status = r.status ∧
      (handle cfg env req).1.headers = [("X-Slack-Powered-By", poweredBy)]) := by
  rw [handle_verified cfg env req raw p hacq hfresh hsig hparse,
    if_neg (by simp [hssl]), hdisp]
  constructor
  · intro hc
    refine ⟨?_, rfl, ?_⟩
    · show (renderResult r).body = none
      unfold renderResult
      rw [hc]
    · show (renderResult r).headers = [("X-Slack-Powered-By", poweredBy)]
      unfold renderResult
      rw [hc]
  · intro s0 hc
    refine ⟨?_, rfl, ?_⟩
    · show (renderResult r).body = some s0
      unfold renderResult
      rw [hc]
    · show (renderResult r).headers = [("X-Slack-Powered-By", poweredBy)]
      unfold renderResult
      rw [hc]

set_option maxRecDepth 100000 in
/-- Claim C9, witness: a result with no content yields no body at the
result's status 500, and a result with string content yields that
literal body with only the identification header. -/
theorem content_absent_or_string_body_witness :
    ((handle noneCfg baseEnv (mkReq "SIGNING_SECRET" tNow okBody)).1.body = none ∧
     (handle noneCfg baseEnv (mkReq "SIGNING_SECRET" tNow okBody)).1.status =
       (⟨500, none⟩ : DispatchResult).status ∧
     (handle noneCfg baseEnv (mkReq "SIGNING_SECRET" tNow okBody)).1.headers =
       [("X-Slack-Powered-By", poweredBy)]) ∧
    ((handle strCfg baseEnv (mkReq "SIGNING_SECRET" tNow okBody)).1.body =
       some "hello, world" ∧
     (handle strCfg baseEnv (mkReq "SIGNING_SECRET" tNow okBody)).1.status =
       (⟨200, some (.str "hello, world")⟩ : DispatchResult).status ∧
     (handle strCfg baseEnv (mkReq "SIGNING_SECRET" tNow okBody)).1.headers =
       [("X-Slack-Powered-By", poweredBy)]) :=
  ⟨(content_absent_or_string_body noneCfg baseEnv
      (mkReq "SIGNING_SECRET" tNow okBody) okBody okPayload ⟨500, none⟩
      rfl (by decide) rfl rfl rfl rfl).1 rfl,
   (content_absent_or_string_body strCfg baseEnv
      (mkReq "SIGNING_SECRET" tNow okBody) okBody okPayload
      ⟨200, some (.str "hello, world")⟩
      rfl (by decide) rfl rfl rfl rfl).2 "hello, world" rfl⟩

/-- Claim C10: for every request that carries an already-parsed body
attribute but no pre-buffered raw body, handle responds with status 500
and does not invoke the dispatch callback, whatever bytes the raw-body
reader would have returned. -/
theorem parsed_body_without_raw_500 (cfg : HandlerConfig) (env : HandleEnv)
    (req : SlackRequest)
    (hraw : req.rawBody = none)
    (hpb : req.hasParsedBody = true) :
    (handle cfg env req).1.status = 500 ∧ (handle cfg env req).2 = [] := by
  have hacq : acquireBody req env =
      .error "Parsing request body prohibits request signature verification" := by
    simp [acquireBody, hraw, hpb]
  unfold handle
  rw [hacq]
  exact ⟨rfl, rfl⟩

set_option maxRecDepth 100000 in
/-- Claim C10, witness: a request with a parsed body and no raw body is
answered 500 without dispatch, although the reader would have produced
exactly the signed bytes. -/
theorem parsed_body_without_raw_500_witness :
    ((readOkEnv.readBody = Except.ok okBody ∧
      parsedOnlyReq.signature =
        computeSignature baseCfg.signingSecret parsedOnlyReq.timestamp okBody) ∧
     (handle baseCfg readOkEnv parsedOnlyReq).1.status = 500 ∧
     (handle baseCfg readOkEnv parsedOnlyReq).2 = []) :=
  ⟨⟨rfl, rfl⟩, parsed_body_without_raw_500 baseCfg readOkEnv parsedOnlyReq rfl rfl⟩

end SlackHandler
